import Mathlib

/-!
Verification development for the runtime reconciliation and delivery engine of
f5-telemetry-streaming: the event-listener subsystem (`src/lib/eventListener`:
`buildFilterFunc`, `ReceiversManager`, `EventListener`, the `configWorker`
change handler) and the consumer registry (`src/lib/consumers.js`:
`loadConsumers`, `getLoadedConsumerTypes`, `unloadUnusedModules`, the
`configWorker` change handler).

External collaborators that the verified code merely calls (the normalization
module `normalize.event`, the delivery pipeline `dataPipeline.process`, the
plugin loader `moduleLoader.load`, the metadata resolver
`metadataUtil.getInstanceMetadata`, the socket-level `MessageStream.restart`
bind machinery, the JS regular-expression engine) are modelled as explicit
function parameters (oracles), so every theorem quantifies over their
behaviour unless a claim pins a concrete instance.
-/

/-- A JavaScript value as far as the verified code observes it: the code only
branches on truthiness (`val && ...`, `a || b`) and coerces values to strings
(`pattern.test(val)`, template literals). Absent object properties read as
`undefined`. -/
inductive JSVal where
  | str (s : String)
  | num (n : Int)
  | null
  | undefined
deriving DecidableEq

/-- JavaScript truthiness of a `JSVal`: `''`, `0`, `null` and `undefined`
are falsy, everything else is truthy. -/
def JSVal.truthy : JSVal → Bool
  | .str s => !s.isEmpty
  | .num n => decide (n ≠ 0)
  | .null => false
  | .undefined => false

/-- JavaScript `String(v)` coercion, as applied implicitly by
`RegExp.prototype.test`. -/
def JSVal.toStr : JSVal → String
  | .str s => s
  | .num n => toString n
  | .null => "null"
  | .undefined => "undefined"

/-- A normalized record (plain JS object) as an association list from property
names to values; `lookupJS` is property access, absent keys read `undefined`. -/
def lookupJS (data : List (String × JSVal)) (k : String) : JSVal :=
  match data.find? (fun kv => kv.1 = k) with
  | some kv => kv.2
  | none => .undefined

/-- Lowercase a character list (our model of JS case folding for the `i`
regular-expression flag, adequate for ASCII patterns such as `err`). -/
def lowerList (l : List Char) : List Char := l.map Char.toLower

/-- `prefixOf pat s`: `pat` is a prefix of `s` (character lists). -/
def prefixOf : List Char → List Char → Bool
  | [], _ => true
  | _ :: _, [] => false
  | a :: as, b :: bs => a = b && prefixOf as bs

/-- `containsSeq pat s`: `pat` occurs contiguously inside `s`. -/
def containsSeq (pat : List Char) : List Char → Bool
  | [] => prefixOf pat []
  | b :: bs => prefixOf pat (b :: bs) || containsSeq pat bs

/-- Modelled from the spec: the JS regular-expression engine applied by
`new RegExp(config.match, 'i')` is an external built-in; for a literal
(metacharacter-free) pattern such as `err`, `pattern.test(val)` is exactly a
case-insensitive substring test, which is what this function computes.
Theorems that do not pin a concrete pattern keep the match predicate abstract
as a parameter `test : String → String → Bool`. -/
def ciTest (pat s : String) : Bool := containsSeq (lowerList pat.toList) (lowerList s.toList)

/-- The body of the closure returned by `buildFilterFunc` (eventListener,
lines 48-56): iterate over the classification keys `props`; return `true` at
the first property whose value is truthy and matches the pattern
(`if (val && pattern.test(val)) return true`), else `false`. -/
def filterByPattern (test : String → String → Bool) (pat : String) (props : List String)
    (data : List (String × JSVal)) : Bool :=
  props.any (fun p => (lookupJS data p).truthy && test pat (lookupJS data p).toStr)

/-- Embeds `buildFilterFunc(config)` (eventListener, lines 40-57):
`if (!config.match || !normalizationOpts.events.classifyByKeys) return null;`
then builds the case-insensitive pattern filter over the classification key
set. `config.match` is falsy when absent or the empty string; `classifyByKeys`
(from `properties.json`, an external data file) is falsy only when absent —
it is passed here as a parameter. -/
def buildFilterFunc (test : String → String → Bool) (classifyByKeys : Option (List String))
    (matchPattern : Option String) : Option (List (String × JSVal) → Bool) :=
  match matchPattern, classifyByKeys with
  | none, _ => none
  | some _, none => none
  | some pat, some props =>
    if pat = "" then none
    else some (filterByPattern test pat props)

/-- JavaScript `String.prototype.trim()`: strip leading and trailing
whitespace (modelled over the character list; `String.trim` of the host
language is a built-in). -/
def jsTrim (s : String) : String :=
  String.mk (((s.toList.dropWhile Char.isWhitespace).reverse.dropWhile Char.isWhitespace).reverse)

/-- `constants.EVENT_TYPES.EVENT_LISTENER`, the default event category used
when the normalized record carries no truthy `telemetryEventCategory`
(`constants.js` is a plain table of string constants; no theorem depends on
the concrete string). -/
def EVENT_LISTENER_TYPE : String := "event"

/-- The data-path projection of an `EventListener` instance: the fields its
`onMessagesHandler` reads (`this.id`, `this.destinationIds`,
`this.filterFunc`), as set by `updateConfig`. -/
structure EvListener where
  id : String
  destinationIds : List String
  filterFunc : Option (List (String × JSVal) → Bool)

/-- The `dataCtx` object handed to `dataPipeline.process` (eventListener,
lines 234-239). -/
structure DataCtx where
  data : List (String × JSVal)
  type : String
  sourceId : String
  destinationIds : List String
deriving DecidableEq

/-- Builds the `dataCtx` for one normalized record:
`type: normalizedData.telemetryEventCategory || constants.EVENT_TYPES.EVENT_LISTENER`,
`sourceId: this.id`, `destinationIds: this.destinationIds`. -/
def mkDataCtx (l : EvListener) (normalizedData : List (String × JSVal)) : DataCtx :=
  { data := normalizedData
    type :=
      (let v := lookupJS normalizedData "telemetryEventCategory"
       if v.truthy then v.toStr else EVENT_LISTENER_TYPE)
    sourceId := l.id
    destinationIds := l.destinationIds }

/-- `!this.filterFunc || this.filterFunc(normalizedData)` (eventListener,
line 233). -/
def passesFilter (l : EvListener) (d : List (String × JSVal)) : Bool :=
  match l.filterFunc with
  | none => true
  | some f => f d

/-- The per-batch record selection performed by
`EventListener.onMessagesHandler` (eventListener, lines 227-244): for each
incoming event string, trim it; skip it when empty; normalize it
(`normalize.event` is external, passed as the oracle `nrm`); skip it when the
configured filter rejects it; otherwise build the `dataCtx` handed to
`dataPipeline.process`. The returned list is exactly the records that reach
the delivery pipeline, in arrival order. -/
def acceptedContexts (nrm : String → List (String × JSVal)) (l : EvListener)
    (newMessages : List String) : List DataCtx :=
  newMessages.filterMap (fun event =>
    let e := jsTrim event
    if e.length = 0 then none
    else
      let normalizedData := nrm e
      if passesFilter l normalizedData then some (mkDataCtx l normalizedData) else none)

/-- The settled state of one promise, as produced by `promiseUtil.allSettled`. -/
inductive Settled (ε α : Type) where
  | fulfilled (a : α)
  | rejected (e : ε)
deriving DecidableEq

/-- What one `dataPipeline.process(dataCtx, ...)` invocation inside
`onMessagesHandler` settles to after the attached
`.catch((err) => this.logger.exception(...))`: either the pipeline delivered,
or its rejection was caught and logged. -/
inductive PipelineOutcome where
  | delivered
  | loggedError (e : String)
deriving DecidableEq

/-- Embeds `EventListener.onMessagesHandler` (eventListener, lines 209-246):
each accepted record is sent to `dataPipeline.process` (outcome oracle
`pipeline`); a rejection is caught by the per-promise `.catch` and converted
into a logged, fulfilled outcome; the handler returns
`promiseUtil.allSettled(promises)`, i.e. the list of settled outcomes. -/
def onMessagesHandler (nrm : String → List (String × JSVal))
    (pipeline : DataCtx → Except String Unit) (l : EvListener)
    (newMessages : List String) : List (Settled String PipelineOutcome) :=
  (acceptedContexts nrm l newMessages).map (fun ctx =>
    Settled.fulfilled
      (match pipeline ctx with
       | .ok _ => .delivered
       | .error e => .loggedError e))

/-- A `Telemetry_Consumer` component as delivered by
`configUtil.getTelemetryConsumers(config)` (the validated configuration is
produced by external collaborators): the properties `loadConsumers` reads. -/
structure ConsumerSpec where
  name : String
  id : String
  type : String
  enable : Bool
  skipUpdate : Bool
  trace : Bool
  allowSelfSignedCert : Option Bool
deriving DecidableEq

/-- The consumer object built by `loadConsumers` (consumers.js, lines 69-86):
`{ name, id, config (deep copy with the allowSelfSignedCert default applied),
consumer (the loaded module, identified here by a handle), tracer, filter,
[metadata] }`. The tracer and the `DataFilter` are external collaborators;
the tracer is kept as the `trace` flag it is built from and the filter is
determined by `config`. -/
structure ConsumerInstance where
  name : String
  id : String
  config : ConsumerSpec
  consumerModule : Nat
  trace : Bool
  metadata : Option (List (String × JSVal))
deriving DecidableEq

/-- The fresh-build branch of one per-spec load (consumers.js, lines 62-86):
resolve the plugin module by type via `moduleLoader.load` (oracle `load`; a
`null` return yields no instance), deep-copy the spec into `config`, apply
`allowSelfSignedCert === undefined ? !constants.STRICT_TLS_REQUIRED : ...`
(the global TLS policy constant is the parameter `strictTls`), and resolve
metadata via `metadataUtil.getInstanceMetadata` (oracle `md`; an empty
metadata object leaves the field unset). -/
def freshConsumer (load : String → Option Nat) (md : String → Option (List (String × JSVal)))
    (strictTls : Bool) (c : ConsumerSpec) : Option ConsumerInstance :=
  match load c.type with
  | none => none
  | some m =>
    some { name := c.name
           id := c.id
           config := { c with allowSelfSignedCert := some (c.allowSelfSignedCert.getD (!strictTls)) }
           consumerModule := m
           trace := c.trace
           metadata := md c.id }

/-- One per-spec load (consumers.js, lines 57-88): if the spec has
`skipUpdate` set and an instance with the same id exists in the currently
published set, resolve with that existing instance; otherwise build fresh. -/
def loadConsumer (load : String → Option Nat) (md : String → Option (List (String × JSVal)))
    (strictTls : Bool) (existing : List ConsumerInstance) (c : ConsumerSpec) :
    Option ConsumerInstance :=
  match existing.find? (fun e => e.id = c.id) with
  | some e => if c.skipUpdate then some e else freshConsumer load md strictTls c
  | none => freshConsumer load md strictTls c

/-- Embeds `loadConsumers(config)` (consumers.js, lines 44-92): the enabled
specs are loaded independently (`promiseUtil.allSettled` over per-spec
promises that only ever resolve), and the settled values with `undefined`
(failed module load) filtered out form the new instance set. The two early
returns for an empty/all-disabled config produce the same empty list. -/
def loadConsumers (load : String → Option Nat) (md : String → Option (List (String × JSVal)))
    (strictTls : Bool) (existing : List ConsumerInstance) (config : List ConsumerSpec) :
    List ConsumerInstance :=
  (config.filter (fun c => c.enable)).filterMap (loadConsumer load md strictTls existing)

/-- Embeds `getLoadedConsumerTypes()` (consumers.js, lines 99-104): the set of
`consumer.config.type` values over the published instance set (`new Set(...)`;
modelled as a duplicate-free list, with `CONSUMERS.length === 0` giving the
empty set). -/
def getLoadedConsumerTypes (consumers : List ConsumerInstance) : List String :=
  (consumers.map (fun c => c.config.type)).dedup

/-- Embeds `unloadUnusedModules(before)` (consumers.js, lines 111-124):
return early when `before` is empty; otherwise unload (report) every type in
`before` that no published instance references any more. The returned list is
the sequence of `moduleLoader.unload` calls issued. -/
def unloadUnusedModules (before : List String) (current : List ConsumerInstance) : List String :=
  if before.isEmpty then []
  else before.filter (fun t => !(getLoadedConsumerTypes current).contains t)

/-- Embeds the consumers `configWorker.on('change')` handler (consumers.js,
lines 127-142): snapshot the loaded types, reload, publish the new instance
set, then evict modules no longer referenced. Returns the published set and
the list of unloaded types. -/
def consumersOnChange (load : String → Option Nat) (md : String → Option (List (String × JSVal)))
    (strictTls : Bool) (old : List ConsumerInstance) (config : List ConsumerSpec) :
    List ConsumerInstance × List String :=
  let typesBefore := getLoadedConsumerTypes old
  let newConsumers := loadConsumers load md strictTls old config
  (newConsumers, unloadUnusedModules typesBefore newConsumers)

/-- The observable state of one `MessageStream` receiver (the socket owner for
one port; the class itself lives in `messageStream.js`, outside the verified
sources): its port, an object-identity handle (`id`, so that "same receiver
object" is expressible), whether it is running (bound), and whether raw-data
forwarding is enabled. -/
structure MessageStream where
  id : Nat
  port : Nat
  running : Bool
  rawFwd : Bool
deriving DecidableEq

/-- `ReceiversManager` state (eventListener, lines 64-67): `this.registered`,
a map from port to its `MessageStream`, modelled as a list with at most one
entry per port, plus a counter for fresh object identities. -/
structure ReceiversManager where
  registered : List MessageStream
  nextId : Nat
deriving DecidableEq

/-- Embeds `ReceiversManager.getMessageStream(port)` (eventListener, lines
98-103): return the registered receiver for `port`, creating (and
registering) a fresh not-running one when absent. -/
def ReceiversManager.getMessageStream (m : ReceiversManager) (port : Nat) :
    MessageStream × ReceiversManager :=
  match m.registered.find? (fun r => r.port = port) with
  | some r => (r, m)
  | none =>
    let r : MessageStream := { id := m.nextId, port := port, running := false, rawFwd := false }
    (r, { registered := m.registered ++ [r], nextId := m.nextId + 1 })

/-- Modelled from the spec: `MessageStream.restart({ attempts })` lives in
`messageStream.js` / the receiver base class, outside the verified sources;
per the spec it retries binding with a fixed attempt budget and no
inter-attempt delay, succeeding as soon as one attempt binds. The bind
outcome of each attempt is the oracle `bind : Nat → Bool` (attempt index to
success). -/
def restartSucceeds (bind : Nat → Bool) (attempts : Nat) : Bool :=
  (List.range attempts).any bind

/-- One receiver's restart inside `ReceiversManager.start` (eventListener,
lines 124-126): `r.restart({ attempts: 10 })` — on success the receiver is
running; on failure the attached `.catch` stops the receiver ("stop to avoid
resources leaking") and re-rejects with the original error. -/
def startOne (bind : Nat → Nat → Bool) (r : MessageStream) :
    MessageStream × Settled String Nat :=
  if restartSucceeds (bind r.port) 10 then
    ({ r with running := true }, .fulfilled r.port)
  else
    ({ r with running := false }, .rejected ("unable to start receiver on port " ++ toString r.port))

/-- Modelled from the spec: `promiseUtil.getValues(results)` (utils/promise,
outside the verified sources) converts `allSettled` results back into plain
values, re-raising the first rejection reason so that failures are reported
upward, never silently swallowed. -/
def getValues : List (Settled String α) → Except String (List α)
  | [] => .ok []
  | .fulfilled a :: rest => (getValues rest).map (fun l => a :: l)
  | .rejected e :: _ => .error e

/-- The raw-data forwarding toggle applied to every registered receiver
(eventListener, lines 117-121). -/
def toggleRaw (hasRaw : Nat → Bool) (r : MessageStream) : MessageStream :=
  { r with rawFwd := hasRaw r.port }

/-- The restart step applied to one registered receiver: receivers with
`messages` subscribers that are not running are restarted, the rest are left
alone (eventListener, lines 112-116 select, lines 123-128 restart). -/
def startStep (hasMsg : Nat → Bool) (bind : Nat → Nat → Bool) (r : MessageStream) :
    MessageStream :=
  if hasMsg r.port && !r.running then (startOne bind r).1 else r

/-- Embeds `ReceiversManager.start()` (eventListener, lines 110-129) modulo
the result plumbing: toggle raw-data forwarding on every registered receiver
(`hasRaw p` = the stream for port `p` has `rawData` subscribers), restart
every receiver that has `messages` subscribers (`hasMsg`) and is not running;
a receiver whose whole attempt budget fails is stopped. Returns the updated
manager and the settled per-restart results. -/
def ReceiversManager.startAll (hasMsg hasRaw : Nat → Bool) (bind : Nat → Nat → Bool)
    (m : ReceiversManager) : ReceiversManager × List (Settled String Nat) :=
  let toggled := m.registered.map (toggleRaw hasRaw)
  ({ m with registered := toggled.map (startStep hasMsg bind) },
   (toggled.filter (fun r => hasMsg r.port && !r.running)).map (fun r => (startOne bind r).2))

/-- `ReceiversManager.start()` including its final
`.then(promiseUtil.getValues)`: the overall promise resolves with the bound
ports, or rejects with the first restart failure. -/
def ReceiversManager.start (hasMsg hasRaw : Nat → Bool) (bind : Nat → Nat → Bool)
    (m : ReceiversManager) : ReceiversManager × Except String (List Nat) :=
  let (m2, results) := m.startAll hasMsg hasRaw bind
  (m2, getValues results)

/-- The lifecycle projection of an `EventListener` instance: its name (the key
in `EventListener.instances`), the port of its attached message stream, and
the configuration fields the reconciliation handler writes
(`updateConfig` / `updateRawDataHandling`). -/
structure Listener where
  name : String
  port : Nat
  cfgId : String
  destinationIds : List String
  inputTracer : Bool
deriving DecidableEq

/-- A `Telemetry_Listener` component as delivered by
`configUtil.getTelemetryListeners(config)`: the properties the eventListener
change handler reads. `destinationIds` stands for
`configUtil.getReceivers(config, listenerConfig).map((r) => r.id)`, computed
by the external config utility. -/
structure ListenerSpec where
  traceName : String
  port : Nat
  enable : Bool
  skipUpdate : Bool
  id : String
  destinationIds : List String
  inputTracer : Bool
deriving DecidableEq

/-- The combined module-level state of `eventListener.js`:
`EventListener.instances` (name-keyed, at most one entry per name) and
`EventListener.receiversManager`. -/
structure ELState where
  instances : List Listener
  receivers : ReceiversManager
deriving DecidableEq

/-- First removal loop of the change handler (eventListener, lines 363-369):
drop every existing listener absent from the configured set. -/
def removeStale (cfg : List ListenerSpec) (ls : List Listener) : List Listener :=
  ls.filter (fun l => cfg.any (fun s => s.traceName = l.name))

/-- Second removal loop (eventListener, lines 371-377): drop every existing
listener that the new configured set explicitly disables. -/
def removeDisabled (cfg : List ListenerSpec) (ls : List Listener) : List Listener :=
  ls.filter (fun l => !(cfg.any (fun s => s.traceName = l.name && s.enable = false)))

/-- The listener produced for one applied spec: `EventListener.get(name, port)`
followed by `updateConfig` and `updateRawDataHandling` leaves the instance
carrying exactly the new spec's values and attached to the stream for the new
port. -/
def mkListener (s : ListenerSpec) : Listener :=
  { name := s.traceName, port := s.port, cfgId := s.id
    destinationIds := s.destinationIds, inputTracer := s.inputTracer }

/-- `EventListener.instances` update for one applied spec: the instance is
reconfigured in place when the name exists, created otherwise. -/
def upsertListener (ls : List Listener) (l : Listener) : List Listener :=
  if ls.any (fun x => x.name = l.name) then
    ls.map (fun x => if x.name = l.name then l else x)
  else ls ++ [l]

/-- One iteration of the create-or-update loop (eventListener, lines 379-401):
specs with `skipUpdate` or `enable === false` are skipped; otherwise the
listener is created or updated and attached to
`receiversManager.getMessageStream(port)` (registering the stream as a side
effect). -/
def applySpec (st : ELState) (s : ListenerSpec) : ELState :=
  if s.skipUpdate || s.enable = false then st
  else
    let rm := (st.receivers.getMessageStream s.port).2
    { instances := upsertListener st.instances (mkListener s), receivers := rm }

/-- The whole create-or-update loop. -/
def applySpecs (cfg : List ListenerSpec) (st : ELState) : ELState :=
  cfg.foldl applySpec st

/-- `receiver.hasListeners('messages')` for the stream on port `p`: some
instance is attached to it (every instance in `EventListener.instances` is
attached to the registered stream for its port). -/
def hasMsgListeners (ls : List Listener) (p : Nat) : Bool :=
  ls.any (fun l => l.port = p)

/-- `receiver.hasListeners('rawData')` for the stream on port `p`: some
attached listener enabled input tracing (`updateRawDataHandling`). -/
def hasRawListeners (ls : List Listener) (p : Nat) : Bool :=
  ls.any (fun l => l.port = p && l.inputTracer)

/-- Embeds `ReceiversManager.stopAndRemoveInactive()` (eventListener, lines
136-149) applied to the module state: every registered receiver whose stream
has no `messages` subscribers is removed from the registry and destroyed
(stopped). Returns the new state and the destroyed receivers. -/
def stopAndRemoveInactive (st : ELState) : ELState × List MessageStream :=
  ({ st with
      receivers := { st.receivers with
        registered := st.receivers.registered.filter (fun r => hasMsgListeners st.instances r.port) } },
   (st.receivers.registered.filter (fun r => !hasMsgListeners st.instances r.port)).map
     (fun r => { r with running := false }))

/-- The state after the two removal loops and the create-or-update loop of
the eventListener change handler (everything before
`stopAndRemoveInactive()`). -/
def elApplyPhase (cfg : List ListenerSpec) (st : ELState) : ELState :=
  applySpecs cfg { st with instances := removeDisabled cfg (removeStale cfg st.instances) }

/-- Embeds the eventListener `configWorker.on('change')` handler
(eventListener, lines 358-407): remove stale and disabled listeners,
create-or-update the enabled non-`skipUpdate` ones (attaching streams),
then `stopAndRemoveInactive()` followed by `start()`. Returns the final
module state, the destroyed receivers, and `start()`'s overall outcome. -/
def elOnConfigChange (bind : Nat → Nat → Bool) (cfg : List ListenerSpec) (st : ELState) :
    ELState × List MessageStream × Except String (List Nat) :=
  let st2 := elApplyPhase cfg st
  let (st3, destroyed) := stopAndRemoveInactive st2
  let (rm, res) := ReceiversManager.start (hasMsgListeners st3.instances)
    (hasRawListeners st3.instances) bind st3.receivers
  ({ st3 with receivers := rm }, destroyed, res)

/-! Concrete instances used by witnesses and counterexamples. -/

/-- A consumer spec of type `X` (first instance). -/
def cSpecX1 : ConsumerSpec :=
  { name := "one", id := "i1", type := "X", enable := true, skipUpdate := false
    trace := false, allowSelfSignedCert := none }

/-- A consumer spec of type `X` (second instance). -/
def cSpecX2 : ConsumerSpec :=
  { name := "two", id := "i2", type := "X", enable := true, skipUpdate := false
    trace := false, allowSelfSignedCert := none }

/-- A published consumer instance for `cSpecX1`. -/
def xInst1 : ConsumerInstance :=
  { name := "one", id := "i1", config := cSpecX1, consumerModule := 0
    trace := false, metadata := none }

/-- A published consumer instance for `cSpecX2`. -/
def xInst2 : ConsumerInstance :=
  { name := "two", id := "i2", config := cSpecX2, consumerModule := 0
    trace := false, metadata := none }

/-- A module loader oracle that resolves every type except `missing`. -/
def cLoad : String → Option Nat := fun t => if t = "missing" then none else some 7

/-- A metadata oracle that always resolves to an empty metadata object. -/
def cMd : String → Option (List (String × JSVal)) := fun _ => none

/-- An enabled consumer spec whose plugin module loads fine. -/
def cSpecGood1 : ConsumerSpec :=
  { name := "g1", id := "idg1", type := "typeA", enable := true, skipUpdate := false
    trace := false, allowSelfSignedCert := none }

/-- A second enabled consumer spec whose plugin module loads fine. -/
def cSpecGood2 : ConsumerSpec :=
  { name := "g2", id := "idg2", type := "typeB", enable := true, skipUpdate := false
    trace := false, allowSelfSignedCert := some true }

/-- An enabled consumer spec whose plugin module is missing. -/
def cSpecBad : ConsumerSpec :=
  { name := "bad", id := "idbad", type := "missing", enable := true, skipUpdate := false
    trace := false, allowSelfSignedCert := none }

/-- A consumer spec with `skipUpdate` set, sharing id `i1` with `xInst1`. -/
def cSpecSkip : ConsumerSpec :=
  { name := "one", id := "i1", type := "X", enable := true, skipUpdate := true
    trace := true, allowSelfSignedCert := some false }

/-- The listener of the spec's filter-correctness example: match pattern
`err`, classification keys `[level]`. -/
def cListener5 : EvListener :=
  { id := "lid", destinationIds := ["c1"],
    filterFunc := buildFilterFunc ciTest (some ["level"]) (some "err") }

/-- A concrete normalization oracle: tags the trimmed event text and a fixed
category. -/
def cNrm : String → List (String × JSVal) := fun e =>
  [("data", JSVal.str e), ("telemetryEventCategory", JSVal.str "LTM")]

/-- A concrete filterless listener. -/
def cEvL : EvListener := { id := "listener1", destinationIds := ["c1", "c2"], filterFunc := none }

/-- A concrete pipeline oracle that rejects exactly the record normalized
from the event `boom`. -/
def cPipe : DataCtx → Except String Unit := fun ctx =>
  if ctx.data = cNrm "boom" then .error "boom" else .ok ()

/-- A listener spec on port 6514 with no consumer destinations. -/
def specL1 : ListenerSpec :=
  { traceName := "L1", port := 6514, enable := true, skipUpdate := false
    id := "uuid1", destinationIds := [], inputTracer := false }

/-- A second listener spec declaring the same port 6514, with one consumer
destination. -/
def specL2 : ListenerSpec :=
  { traceName := "L2", port := 6514, enable := true, skipUpdate := false
    id := "uuid2", destinationIds := ["c1"], inputTracer := false }

/-- The eventListener module state of a fresh process: no listeners, no
receivers. -/
def emptyEL : ELState := { instances := [], receivers := { registered := [], nextId := 0 } }

/-- A bind oracle under which every attempt on every port succeeds. -/
def bindOk : Nat → Nat → Bool := fun _ _ => true

/-- A manager with two stopped receivers, on ports 1 and 2. -/
def cM3 : ReceiversManager :=
  { registered := [ { id := 0, port := 1, running := false, rawFwd := false },
                    { id := 1, port := 2, running := false, rawFwd := false } ]
    nextId := 2 }

/-- A bind oracle under which port 2 always binds and every other port
always fails. -/
def cBind : Nat → Nat → Bool := fun pt _ => pt = 2

/-- The invariant relating the two module-level registries of
`eventListener.js`: every listener instance is attached to a registered
message stream, i.e. its port has a receiver in `receiversManager.registered`
(`EventListener.get` always attaches `receiversManager.getMessageStream(port)`,
and `stopAndRemoveInactive` only drops streams without attached listeners). -/
def ELInv (st : ELState) : Prop :=
  ∀ l ∈ st.instances, ∃ r ∈ st.receivers.registered, r.port = l.port

/-! Shared helper lemmas. -/

/-- A failed module load yields no instance for that spec, unless the
`skipUpdate` reuse branch applies. -/
theorem loadConsumer_eq_none (load : String → Option Nat)
    (md : String → Option (List (String × JSVal))) (strictTls : Bool)
    (existing : List ConsumerInstance) (c : ConsumerSpec)
    (hload : load c.type = none)
    (hskip : c.skipUpdate = true → existing.find? (fun e => e.id = c.id) = none) :
    loadConsumer load md strictTls existing c = none := by
  unfold loadConsumer
  cases hfind : existing.find? (fun e => e.id = c.id) with
  | some e =>
    cases hsk : c.skipUpdate with
    | true => rw [hskip hsk] at hfind; exact absurd hfind (by simp)
    | false => simp [freshConsumer, hload]
  | none => simp [freshConsumer, hload]

/-- Membership in the loaded-types set is membership of some published
instance's type. -/
theorem mem_getLoadedConsumerTypes (cs : List ConsumerInstance) (t : String) :
    t ∈ getLoadedConsumerTypes cs ↔ ∃ c ∈ cs, c.config.type = t := by
  unfold getLoadedConsumerTypes
  rw [List.mem_dedup, List.mem_map]

/-- The unloaded-types list of `unloadUnusedModules` has no duplicates. -/
theorem nodup_unloadUnusedModules (before : List String) (cur : List ConsumerInstance)
    (hnd : before.Nodup) : (unloadUnusedModules before cur).Nodup := by
  unfold unloadUnusedModules
  by_cases h : before.isEmpty <;> simp [h, List.Nodup.filter, hnd]

/-- C2: after a consumers reload, a consumer module type is unloaded if and
only if some instance of the old published set referenced it and no instance
of the new published set does; the unload list never names a type twice; in
particular, starting from two published instances of type `X`, a reload that
keeps one of them unloads nothing, and a reload that removes both unloads
`X` exactly once. -/
theorem moduleUnload_iff_unreferenced (load : String → Option Nat)
    (md : String → Option (List (String × JSVal))) (strictTls : Bool)
    (old : List ConsumerInstance) (config : List ConsumerSpec) (t : String) :
    (t ∈ (consumersOnChange load md strictTls old config).2 ↔
      (∃ c ∈ old, c.config.type = t) ∧
      ¬ ∃ c ∈ (consumersOnChange load md strictTls old config).1, c.config.type = t) ∧
    (consumersOnChange load md strictTls old config).2.count t ≤ 1 ∧
    (consumersOnChange cLoad cMd true [xInst1, xInst2] [cSpecX1]).2 = [] ∧
    (consumersOnChange cLoad cMd true [xInst1, xInst2] []).2 = ["X"] := by
  refine ⟨?_, ?_, by decide, by decide⟩
  · show t ∈ unloadUnusedModules (getLoadedConsumerTypes old) _ ↔ _
    unfold unloadUnusedModules
    cases hemp : (getLoadedConsumerTypes old).isEmpty with
    | true =>
      have hold : old = [] := by
        have h1 : (old.map (fun c => c.config.type)).dedup = [] :=
          List.isEmpty_iff.mp hemp
        have h2 : old.map (fun c => c.config.type) = [] := by
          rwa [List.dedup_eq_nil] at h1
        simpa using h2
      subst hold
      simp
    | false =>
      rw [if_neg (by simp [hemp])]
      rw [List.mem_filter]
      rw [mem_getLoadedConsumerTypes]
      have hcont : (!(getLoadedConsumerTypes
          (loadConsumers load md strictTls old config)).contains t) = true ↔
          ¬ ∃ c ∈ loadConsumers load md strictTls old config, c.config.type = t := by
        rw [← mem_getLoadedConsumerTypes]
        simp
      rw [hcont]
      exact Iff.rfl
  · have hnd : ((consumersOnChange load md strictTls old config).2).Nodup :=
      nodup_unloadUnusedModules _ _ (List.nodup_dedup _)
    exact List.nodup_iff_count_le_one.mp hnd t

/-- C4: consumer reload isolation — an enabled spec whose plugin module fails
to load (the loader returns `null`) yields no instance, while every other
spec's load is unaffected: dropping the failing spec from the reload does not
change the published instance set at all, and the failing spec alone
produces the empty set. -/
theorem consumerLoadFailure_isolated (load : String → Option Nat)
    (md : String → Option (List (String × JSVal))) (strictTls : Bool)
    (existing : List ConsumerInstance) (cfg1 cfg2 : List ConsumerSpec) (c : ConsumerSpec)
    (hen : c.enable = true) (hload : load c.type = none)
    (hskip : c.skipUpdate = true → existing.find? (fun e => e.id = c.id) = none) :
    loadConsumers load md strictTls existing (cfg1 ++ c :: cfg2) =
      loadConsumers load md strictTls existing (cfg1 ++ cfg2) ∧
    loadConsumers load md strictTls existing [c] = [] := by
  have hnone := loadConsumer_eq_none load md strictTls existing c hload hskip
  unfold loadConsumers
  constructor
  · simp [List.filter_append, List.filter_cons, List.filterMap_append, List.filterMap_cons,
      hen, hnone]
  · simp [List.filter_cons, hen, hnone]

/-- Witness for C4 at a concrete reload: dropping the spec whose module is
missing leaves the other two specs' instances untouched. -/
theorem consumerLoadFailure_isolated_witness :
    loadConsumers cLoad cMd true [] [cSpecGood1, cSpecBad, cSpecGood2] =
      loadConsumers cLoad cMd true [] [cSpecGood1, cSpecGood2] ∧
    loadConsumers cLoad cMd true [] [cSpecBad] = [] :=
  consumerLoadFailure_isolated cLoad cMd true [] [cSpecGood1] [cSpecGood2] cSpecBad rfl rfl
    (fun _ => rfl)

/-- C8: `skipUpdate` short-circuit — for a spec with `skipUpdate` set whose id
already has a published instance, the per-spec load resolves with exactly that
existing instance object for every module loader, metadata resolver and TLS
policy (so no module load and no option/filter/tracer/metadata resolution can
influence it); for a spec without `skipUpdate`, the published set is ignored
and a fresh instance is built. -/
theorem skipUpdate_reuses_existing_instance (existing : List ConsumerInstance)
    (c : ConsumerSpec) (e : ConsumerInstance) (hskip : c.skipUpdate = true)
    (hfind : existing.find? (fun x => x.id = c.id) = some e) :
    (∀ load md strictTls, loadConsumer load md strictTls existing c = some e) ∧
    (∀ (load : String → Option Nat) (md : String → Option (List (String × JSVal)))
        (strictTls : Bool) (c' : ConsumerSpec), c'.skipUpdate = false →
      ∀ existing', loadConsumer load md strictTls existing' c' =
        freshConsumer load md strictTls c') := by
  constructor
  · intro load md s
    unfold loadConsumer
    rw [hfind]
    simp [hskip]
  · intro load md s c' hc' ex'
    unfold loadConsumer
    cases ex'.find? (fun x => x.id = c'.id) <;> simp [hc']

/-- Witness for C8: with `xInst1` published under id `i1`, a `skipUpdate`
spec with id `i1` resolves with `xInst1` itself. -/
theorem skipUpdate_reuses_existing_instance_witness :
    loadConsumer cLoad cMd true [xInst1, xInst2] cSpecSkip = some xInst1 :=
  (skipUpdate_reuses_existing_instance [xInst1, xInst2] cSpecSkip xInst1 rfl (by decide)).1
    cLoad cMd true

/-- C5: match-filter correctness — for a listener with a non-empty match
pattern and the classification key set, a filter function is built, and it
accepts a normalized record exactly when some classification key holds a
truthy value matching the pattern (case-insensitively, via the match
predicate); with pattern `err` and keys `[level]` a `level: ERROR` record is
accepted and a `level: info` record rejected; and every record that reaches
the delivery pipeline passed the filter (rejected records are dropped
first). -/
theorem matchFilter_accepts_iff (test : String → String → Bool) (props : List String)
    (pat : String) (hpat : pat ≠ "") (l : EvListener)
    (hl : l.filterFunc = buildFilterFunc test (some props) (some pat)) :
    l.filterFunc = some (filterByPattern test pat props) ∧
    (∀ data, passesFilter l data = true ↔
      ∃ k ∈ props, (lookupJS data k).truthy = true ∧ test pat (lookupJS data k).toStr = true) ∧
    (∀ nrm msgs, ∀ ctx ∈ acceptedContexts nrm l msgs, passesFilter l ctx.data = true) ∧
    passesFilter cListener5 [("level", JSVal.str "ERROR")] = true ∧
    passesFilter cListener5 [("level", JSVal.str "info")] = false := by
  have hbf : buildFilterFunc test (some props) (some pat) =
      some (filterByPattern test pat props) := by
    simp [buildFilterFunc, hpat]
  have hsome : l.filterFunc = some (filterByPattern test pat props) := by rw [hl, hbf]
  refine ⟨hsome, ?_, ?_, by decide, by decide⟩
  · intro data
    rw [passesFilter, hsome]
    simp [filterByPattern, List.any_eq_true, Bool.and_eq_true]
  · intro nrm msgs ctx hctx
    rw [acceptedContexts, List.mem_filterMap] at hctx
    obtain ⟨ev, _, heq⟩ := hctx
    by_cases h1 : (jsTrim ev).length = 0
    · simp [h1] at heq
    · by_cases h2 : passesFilter l (nrm (jsTrim ev)) = true
      · simp [h1, h2] at heq
        subst heq
        exact h2
      · simp [h1, h2] at heq

/-- Witness for C5: the built `err`/`[level]` filter accepts
`level: "ERROR"` and rejects `level: "info"`. -/
theorem matchFilter_accepts_iff_witness :
    passesFilter cListener5 [("level", JSVal.str "ERROR")] = true ∧
    passesFilter cListener5 [("level", JSVal.str "info")] = false :=
  ⟨(matchFilter_accepts_iff ciTest ["level"] "err" (by decide) cListener5 rfl).2.2.2.1,
   (matchFilter_accepts_iff ciTest ["level"] "err" (by decide) cListener5 rfl).2.2.2.2⟩

/-- C10: the built match filter rejects every record whose value under each
classification key is absent or falsy, for every match predicate — even one
that matches the empty string; and when no match pattern (or no
classification key set) is configured, no filter function is built, so every
normalized record with non-empty trimmed source text is forwarded to the
pipeline. -/
theorem filter_rejects_falsy_values (test : String → String → Bool) (props : List String)
    (data : List (String × JSVal))
    (hfalsy : ∀ k ∈ props, (lookupJS data k).truthy = false) :
    (∀ pat, pat ≠ "" →
      filterByPattern test pat props data = false ∧
      buildFilterFunc test (some props) (some pat) = some (filterByPattern test pat props)) ∧
    (∀ cbk, buildFilterFunc test cbk none = none) ∧
    (∀ mp, buildFilterFunc test none mp = none) ∧
    (∀ (l : EvListener), l.filterFunc = none → ∀ nrm msgs ev, ev ∈ msgs →
      (jsTrim ev).length ≠ 0 →
      mkDataCtx l (nrm (jsTrim ev)) ∈ acceptedContexts nrm l msgs) := by
  refine ⟨?_, ?_, ?_, ?_⟩
  · intro pat hpat
    constructor
    · rw [filterByPattern, List.any_eq_false]
      intro k hk
      simp [hfalsy k hk]
    · simp [buildFilterFunc, hpat]
  · intro cbk
    rfl
  · intro mp
    cases mp <;> rfl
  · intro l hlf nrm msgs ev hev h1
    rw [acceptedContexts, List.mem_filterMap]
    refine ⟨ev, hev, ?_⟩
    simp [h1, passesFilter, hlf]

/-- Witness for C10: with classification keys `[level, code]` and a record
holding only the falsy values `""` and `0`, the filter built from a match
predicate accepting everything (even the empty string) still rejects the
record. -/
theorem filter_rejects_falsy_values_witness :
    filterByPattern (fun _ _ => true) "x" ["level", "code"]
      [("level", JSVal.str ""), ("code", JSVal.num 0), ("extra", JSVal.null)] = false :=
  ((filter_rejects_falsy_values (fun _ _ => true) ["level", "code"]
      [("level", JSVal.str ""), ("code", JSVal.num 0), ("extra", JSVal.null)]
      (by decide)).1 "x" (by decide)).1

/-- C9: per-event preprocessing — a trailing event whose trimmed text is
empty contributes nothing (no normalization, filtering or delivery), and
every record handed to the delivery pipeline carries the listener's id as
`sourceId`, the listener's destination consumer-ids, the normalization of
some trimmed non-empty incoming event as `data`, and that record's
`telemetryEventCategory` (default `EVENT_LISTENER_TYPE`) as `type`. -/
theorem event_preprocessing_trim_discard_forward (nrm : String → List (String × JSVal))
    (l : EvListener) (msgs : List String) (w : String) (hw : jsTrim w = "") :
    acceptedContexts nrm l (msgs ++ [w]) = acceptedContexts nrm l msgs ∧
    (∀ ctx ∈ acceptedContexts nrm l msgs,
      ctx.sourceId = l.id ∧ ctx.destinationIds = l.destinationIds ∧
      ∃ ev ∈ msgs, (jsTrim ev).length ≠ 0 ∧ ctx.data = nrm (jsTrim ev) ∧
        passesFilter l (nrm (jsTrim ev)) = true ∧
        ctx.type = (let v := lookupJS (nrm (jsTrim ev)) "telemetryEventCategory"
                    if v.truthy then v.toStr else EVENT_LISTENER_TYPE)) := by
  constructor
  · rw [acceptedContexts, acceptedContexts, List.filterMap_append]
    simp [hw]
  · intro ctx hctx
    rw [acceptedContexts, List.mem_filterMap] at hctx
    obtain ⟨ev, hev, heq⟩ := hctx
    by_cases h1 : (jsTrim ev).length = 0
    · simp [h1] at heq
    · by_cases h2 : passesFilter l (nrm (jsTrim ev)) = true
      · simp [h1, h2] at heq
        subst heq
        exact ⟨rfl, rfl, ev, hev, h1, rfl, h2, rfl⟩
      · simp [h1, h2] at heq

/-- Witness for C9: the whitespace-only event is discarded while the
non-empty one survives. -/
theorem event_preprocessing_trim_discard_forward_witness :
    acceptedContexts cNrm cEvL ["a=1", "  "] = acceptedContexts cNrm cEvL ["a=1"] :=
  (event_preprocessing_trim_discard_forward cNrm cEvL ["a=1"] "  " (by decide)).1

/-- C7: delivery-failure isolation — every settled entry returned by
`onMessagesHandler` is fulfilled (the handler's promise never rejects); one
outcome is produced for every accepted record regardless of pipeline
failures; a pipeline rejection is caught and surfaces as a logged outcome;
and the i-th outcome is a function of the pipeline's answer on the i-th
accepted record alone. -/
theorem pipelineFailure_isolated_from_ingestion (nrm : String → List (String × JSVal))
    (pipeline : DataCtx → Except String Unit) (l : EvListener) (msgs : List String) :
    (∀ res ∈ onMessagesHandler nrm pipeline l msgs, ∃ o, res = Settled.fulfilled o) ∧
    (onMessagesHandler nrm pipeline l msgs).length = (acceptedContexts nrm l msgs).length ∧
    (∀ ctx ∈ acceptedContexts nrm l msgs, ∀ e, pipeline ctx = Except.error e →
      Settled.fulfilled (PipelineOutcome.loggedError e) ∈ onMessagesHandler nrm pipeline l msgs) ∧
    (∀ (i : Nat) (hi : i < (acceptedContexts nrm l msgs).length)
        (hi2 : i < (onMessagesHandler nrm pipeline l msgs).length),
      (onMessagesHandler nrm pipeline l msgs).get ⟨i, hi2⟩ =
        Settled.fulfilled
          (match pipeline ((acceptedContexts nrm l msgs).get ⟨i, hi⟩) with
           | .ok _ => PipelineOutcome.delivered
           | .error e => PipelineOutcome.loggedError e)) := by
  refine ⟨?_, ?_, ?_, ?_⟩
  · intro res hres
    rw [onMessagesHandler, List.mem_map] at hres
    obtain ⟨ctx, _, heq⟩ := hres
    exact ⟨_, heq.symm⟩
  · rw [onMessagesHandler, List.length_map]
  · intro ctx hctx e he
    rw [onMessagesHandler, List.mem_map]
    exact ⟨ctx, hctx, by rw [he]⟩
  · intro i hi hi2
    simp [onMessagesHandler, List.get_eq_getElem]

/-- Witness for C7: in a two-event batch where the pipeline rejects the
record normalized from `boom`, the rejection is caught and logged. -/
theorem pipelineFailure_isolated_from_ingestion_witness :
    Settled.fulfilled (PipelineOutcome.loggedError "boom") ∈
      onMessagesHandler cNrm cPipe cEvL [" boom ", "ok"] :=
  (pipelineFailure_isolated_from_ingestion cNrm cPipe cEvL [" boom ", "ok"]).2.2.1
    (mkDataCtx cEvL (cNrm "boom")) (by decide) "boom" rfl

/-- `getValues` reports a failure upward whenever any settled entry is a
rejection. -/
theorem getValues_error_of_mem {α : Type} (l : List (Settled String α)) (e : String)
    (h : Settled.rejected e ∈ l) : ∃ e2, getValues l = Except.error e2 := by
  induction l with
  | nil => cases h
  | cons hd tl ih =>
    cases hd with
    | fulfilled a =>
      rcases List.mem_cons.mp h with h1 | h1
      · exact absurd h1 (by simp)
      · obtain ⟨e2, he2⟩ := ih h1
        exact ⟨e2, by simp [getValues, he2, Except.map]⟩
    | rejected er => exact ⟨er, rfl⟩

/-- `List.any` only depends on the predicate's values on the list. -/
theorem any_congr_on (l : List Nat) (b b2 : Nat → Bool)
    (h : ∀ i ∈ l, b i = b2 i) : l.any b = l.any b2 := by
  induction l with
  | nil => rfl
  | cons x xs ih =>
    simp only [List.any_cons, h x (by simp)]
    rw [ih (fun i hi => h i (by simp [hi]))]

/-- `getMessageStream` never removes a registered port. -/
theorem getMessageStream_registered_mono (m : ReceiversManager) (q pt : Nat)
    (h : ∃ r ∈ m.registered, r.port = pt) :
    ∃ r ∈ (m.getMessageStream q).2.registered, r.port = pt := by
  cases hfind : m.registered.find? (fun x => x.port = q) with
  | some r => simpa [ReceiversManager.getMessageStream, hfind] using h
  | none =>
    obtain ⟨r, hr, hp⟩ := h
    refine ⟨r, ?_, hp⟩
    simp only [ReceiversManager.getMessageStream, hfind, List.mem_append]
    exact Or.inl hr

/-- After `getMessageStream q`, port `q` is registered. -/
theorem getMessageStream_registers (m : ReceiversManager) (q : Nat) :
    ∃ r ∈ (m.getMessageStream q).2.registered, r.port = q := by
  cases hfind : m.registered.find? (fun x => x.port = q) with
  | some r =>
    have hp := List.find?_some hfind
    have hm := List.mem_of_find?_eq_some hfind
    exact ⟨r, by simpa [ReceiversManager.getMessageStream, hfind] using hm, by simpa using hp⟩
  | none =>
    refine ⟨{ id := m.nextId, port := q, running := false, rawFwd := false }, ?_, rfl⟩
    simp [ReceiversManager.getMessageStream, hfind]

/-- Every member of an upserted instance list is an old member or the new
listener. -/
theorem mem_upsertListener (ls : List Listener) (l x : Listener)
    (h : x ∈ upsertListener ls l) : x ∈ ls ∨ x = l := by
  unfold upsertListener at h
  split at h
  · rw [List.mem_map] at h
    obtain ⟨y, hy, heq⟩ := h
    by_cases hn : y.name = l.name
    · right
      rw [if_pos hn] at heq
      exact heq.symm
    · left
      rw [if_neg hn] at heq
      rwa [← heq]
  · rcases List.mem_append.mp h with h1 | h1
    · exact Or.inl h1
    · exact Or.inr (by simpa using h1)

/-- `applySpec` preserves the attachment invariant. -/
theorem ELInv_applySpec (st : ELState) (s : ListenerSpec) (h : ELInv st) :
    ELInv (applySpec st s) := by
  unfold applySpec
  split
  · exact h
  · intro l hl
    rcases mem_upsertListener _ _ _ hl with hmem | heq
    · exact getMessageStream_registered_mono _ _ _ (h l hmem)
    · subst heq
      exact getMessageStream_registers st.receivers s.port

/-- `applySpecs` preserves the attachment invariant. -/
theorem ELInv_applySpecs (cfg : List ListenerSpec) (st : ELState) (h : ELInv st) :
    ELInv (applySpecs cfg st) := by
  induction cfg generalizing st with
  | nil => exact h
  | cons s rest ih => exact ih _ (ELInv_applySpec st s h)

/-- Removing stale or disabled listeners preserves the attachment invariant. -/
theorem ELInv_removals (cfg : List ListenerSpec) (st : ELState) (h : ELInv st) :
    ELInv { st with instances := removeDisabled cfg (removeStale cfg st.instances) } := by
  intro l hl
  exact h l (List.mem_of_mem_filter (List.mem_of_mem_filter hl))

/-- `startOne` does not change a receiver's port. -/
theorem startOne_port (bind : Nat → Nat → Bool) (r : MessageStream) :
    (startOne bind r).1.port = r.port := by
  unfold startOne
  split <;> rfl

/-- `startOne` leaves the receiver running exactly when the retry budget
succeeded. -/
theorem startOne_running (bind : Nat → Nat → Bool) (r : MessageStream) :
    (startOne bind r).1.running = restartSucceeds (bind r.port) 10 := by
  unfold startOne
  split <;> simp_all

/-- `startStep` does not change a receiver's port. -/
theorem startStep_port (hasMsg : Nat → Bool) (bind : Nat → Nat → Bool) (r : MessageStream) :
    (startStep hasMsg bind r).port = r.port := by
  unfold startStep
  split
  · exact startOne_port bind r
  · rfl

/-- `toggleRaw` changes neither port nor running state. -/
theorem toggleRaw_port_running (hasRaw : Nat → Bool) (r : MessageStream) :
    (toggleRaw hasRaw r).port = r.port ∧ (toggleRaw hasRaw r).running = r.running :=
  ⟨rfl, rfl⟩

/-- For a stopped receiver with `messages` subscribers, `startStep` runs the
retry budget and records its outcome. -/
theorem startStep_running_of_stopped (hasMsg : Nat → Bool) (bind : Nat → Nat → Bool)
    (r : MessageStream) (hmsg : hasMsg r.port = true) (hrun : r.running = false) :
    (startStep hasMsg bind r).running = restartSucceeds (bind r.port) 10 := by
  unfold startStep
  rw [hmsg, hrun]
  simpa using startOne_running bind r

/-- An already-running receiver is left alone by `startStep`. -/
theorem startStep_of_running (hasMsg : Nat → Bool) (bind : Nat → Nat → Bool)
    (r : MessageStream) (hrun : r.running = true) :
    startStep hasMsg bind r = r := by
  unfold startStep
  rw [hrun]
  simp

/-- C6: acquiring a port's receiver is idempotent — under the registry
invariant of at most one receiver per port, a second `getMessageStream(port)`
call returns the same receiver object and leaves the manager unchanged (so
any number of calls return the same receiver), and after the first call the
registry holds exactly one receiver for the port; consequently reconciling
two listener specs that declare the same port 6514 from a fresh state leaves
exactly one registered receiver on that port. -/
theorem getMessageStream_idempotent (m : ReceiversManager) (pt : Nat)
    (hone : m.registered.countP (fun x => x.port = pt) ≤ 1) :
    (((m.getMessageStream pt).2.getMessageStream pt).1 = (m.getMessageStream pt).1 ∧
     ((m.getMessageStream pt).2.getMessageStream pt).2 = (m.getMessageStream pt).2 ∧
     (m.getMessageStream pt).2.registered.countP (fun x => x.port = pt) = 1) ∧
    (elOnConfigChange bindOk [specL1, specL2] emptyEL).1.receivers.registered.countP
      (fun x => x.port = 6514) = 1 := by
  refine ⟨?_, by decide⟩
  cases hfind : m.registered.find? (fun x => decide (x.port = pt)) with
  | some r =>
    have hr := List.find?_some hfind
    have hmem : r ∈ m.registered := List.mem_of_find?_eq_some hfind
    have hpos : 0 < m.registered.countP (fun x => decide (x.port = pt)) :=
      List.countP_pos_iff.mpr ⟨r, hmem, hr⟩
    simp only [ReceiversManager.getMessageStream, hfind]
    exact ⟨trivial, trivial, by omega⟩
  | none =>
    have hzero : m.registered.countP (fun x => decide (x.port = pt)) = 0 := by
      rw [List.countP_eq_zero]
      exact List.find?_eq_none.mp hfind
    simp only [ReceiversManager.getMessageStream, hfind]
    have hfind2 : List.find? (fun x => decide (x.port = pt))
        (m.registered ++
          [({ id := m.nextId, port := pt, running := false, rawFwd := false } : MessageStream)]) =
        some ({ id := m.nextId, port := pt, running := false, rawFwd := false } : MessageStream) := by
      rw [List.find?_append, hfind]
      simp
    simp only [hfind2]
    refine ⟨trivial, trivial, ?_⟩
    rw [List.countP_append, hzero]
    simp

/-- Witness for C6 on a fresh manager and port 6514. -/
theorem getMessageStream_idempotent_witness :
    ((emptyEL.receivers.getMessageStream 6514).2.getMessageStream 6514).1 =
      (emptyEL.receivers.getMessageStream 6514).1 ∧
    ((emptyEL.receivers.getMessageStream 6514).2.getMessageStream 6514).2 =
      (emptyEL.receivers.getMessageStream 6514).2 :=
  ⟨(getMessageStream_idempotent emptyEL.receivers 6514 (by decide)).1.1,
   (getMessageStream_idempotent emptyEL.receivers 6514 (by decide)).1.2.1⟩

/-- C3: port (re)bind retry — `start()` restarts a stopped receiver with a
budget of exactly 10 attempts (only attempt indexes 0..9 are ever consulted;
an oracle succeeding only at attempt 9 binds, one succeeding only at attempt
10 does not) and no modelled inter-attempt delay; when every attempt on port
`p` fails the receiver on `p` ends up stopped (never left half-open) while a
port `q` whose budget succeeds ends up running (other ports unaffected); and
when a receiver on `p` was due a restart, the overall `start()` outcome is an
error (the failure is reported upward, not swallowed). -/
theorem bindRetry_budget_stop_report (m : ReceiversManager) (bind : Nat → Nat → Bool)
    (hasMsg hasRaw : Nat → Bool) (p q : Nat)
    (hstopped : ∀ r ∈ m.registered, r.running = false)
    (hmsgp : hasMsg p = true) (hmsgq : hasMsg q = true)
    (hfail : ∀ i, bind p i = false)
    (hqok : restartSucceeds (bind q) 10 = true) :
    (∀ r ∈ (ReceiversManager.start hasMsg hasRaw bind m).1.registered,
       (r.port = p → r.running = false) ∧ (r.port = q → r.running = true)) ∧
    ((∃ r ∈ m.registered, r.port = p) →
       ∃ e, (ReceiversManager.start hasMsg hasRaw bind m).2 = Except.error e) ∧
    (∀ b b2 : Nat → Bool, (∀ i, i < 10 → b i = b2 i) →
       restartSucceeds b 10 = restartSucceeds b2 10) ∧
    restartSucceeds (fun i => decide (i = 9)) 10 = true ∧
    restartSucceeds (fun i => decide (i = 10)) 10 = false := by
  have hpfail : restartSucceeds (bind p) 10 = false := by
    rw [restartSucceeds, List.any_eq_false]
    intro i _
    simp [hfail i]
  refine ⟨?_, ?_, ?_, by decide, by decide⟩
  · intro r' hr'
    simp only [ReceiversManager.start, ReceiversManager.startAll, List.map_map] at hr'
    rw [List.mem_map] at hr'
    obtain ⟨r0, hr0, heq⟩ := hr'
    have hrun : r0.running = false := hstopped r0 hr0
    have hportt : (toggleRaw hasRaw r0).port = r0.port := rfl
    have hrunt : (toggleRaw hasRaw r0).running = false := hrun
    have hport : r'.port = r0.port := by
      rw [← heq]
      show (startStep hasMsg bind (toggleRaw hasRaw r0)).port = r0.port
      rw [startStep_port, hportt]
    constructor
    · intro hp
      have hrp : r0.port = p := by rw [← hport]; exact hp
      have : r'.running = restartSucceeds (bind r0.port) 10 := by
        rw [← heq]
        show (startStep hasMsg bind (toggleRaw hasRaw r0)).running = _
        rw [startStep_running_of_stopped hasMsg bind _ (by rw [hportt, hrp]; exact hmsgp) hrunt,
          hportt]
      rw [this, hrp, hpfail]
    · intro hq
      have hrq : r0.port = q := by rw [← hport]; exact hq
      have : r'.running = restartSucceeds (bind r0.port) 10 := by
        rw [← heq]
        show (startStep hasMsg bind (toggleRaw hasRaw r0)).running = _
        rw [startStep_running_of_stopped hasMsg bind _ (by rw [hportt, hrq]; exact hmsgq) hrunt,
          hportt]
      rw [this, hrq, hqok]
  · rintro ⟨r0, hr0, hrp⟩
    have hrun : r0.running = false := hstopped r0 hr0
    have hmemtog : toggleRaw hasRaw r0 ∈ m.registered.map (toggleRaw hasRaw) :=
      List.mem_map.mpr ⟨r0, hr0, rfl⟩
    have hcond : (hasMsg (toggleRaw hasRaw r0).port && !(toggleRaw hasRaw r0).running) = true := by
      show (hasMsg r0.port && !r0.running) = true
      rw [hrp, hrun, hmsgp]
      rfl
    have hmemfil : toggleRaw hasRaw r0 ∈
        (m.registered.map (toggleRaw hasRaw)).filter
          (fun r => hasMsg r.port && !r.running) :=
      List.mem_filter.mpr ⟨hmemtog, hcond⟩
    have hrej : (startOne bind (toggleRaw hasRaw r0)).2 =
        Settled.rejected ("unable to start receiver on port " ++ toString p) := by
      unfold startOne
      have : (toggleRaw hasRaw r0).port = p := hrp
      rw [this, hpfail]
      simp
    have hmemres : Settled.rejected ("unable to start receiver on port " ++ toString p) ∈
        ((m.registered.map (toggleRaw hasRaw)).filter
          (fun r => hasMsg r.port && !r.running)).map (fun r => (startOne bind r).2) :=
      List.mem_map.mpr ⟨toggleRaw hasRaw r0, hmemfil, hrej⟩
    exact getValues_error_of_mem _ _ hmemres
  · intro b b2 hagree
    rw [restartSucceeds, restartSucceeds]
    exact any_congr_on _ b b2 (fun i hi => hagree i (List.mem_range.mp hi))

/-- Witness for C3: with port 1 always failing to bind and port 2 binding,
the overall `start()` outcome is an error. -/
theorem bindRetry_budget_stop_report_witness :
    ∃ e, (ReceiversManager.start (fun _ => true) (fun _ => false) cBind cM3).2 =
      Except.error e :=
  (bindRetry_budget_stop_report cM3 cBind (fun _ => true) (fun _ => false) 1 2
    (by decide) rfl rfl (fun _ => rfl) (by decide)).2.1
    ⟨{ id := 0, port := 1, running := false, rawFwd := false }, by decide, rfl⟩

/-- The `messages`-subscriber check is existence of an attached listener. -/
theorem hasMsgListeners_iff (ls : List Listener) (p : Nat) :
    hasMsgListeners ls p = true ↔ ∃ l ∈ ls, l.port = p := by
  rw [hasMsgListeners, List.any_eq_true]
  simp

/-- When every bind attempt succeeds, the retry budget succeeds. -/
theorem restartSucceeds_always (b : Nat → Bool) (h : ∀ i, b i = true) :
    restartSucceeds b 10 = true := by
  rw [restartSucceeds, List.any_eq_true]
  exact ⟨0, by decide, h 0⟩

/-- `elApplyPhase` preserves the attachment invariant. -/
theorem ELInv_elApplyPhase (cfg : List ListenerSpec) (st : ELState) (h : ELInv st) :
    ELInv (elApplyPhase cfg st) :=
  ELInv_applySpecs cfg _ (ELInv_removals cfg st h)

/-- The change handler, written out over `elApplyPhase`'s components. -/
theorem elOnConfigChange_eq (bind : Nat → Nat → Bool) (cfg : List ListenerSpec)
    (st : ELState) :
    elOnConfigChange bind cfg st =
      ({ instances := (elApplyPhase cfg st).instances
         receivers :=
           { registered := (((elApplyPhase cfg st).receivers.registered.filter
                 (fun r => hasMsgListeners (elApplyPhase cfg st).instances r.port)).map
                   (toggleRaw (hasRawListeners (elApplyPhase cfg st).instances))).map
                     (startStep (hasMsgListeners (elApplyPhase cfg st).instances) bind)
             nextId := (elApplyPhase cfg st).receivers.nextId } },
       ((elApplyPhase cfg st).receivers.registered.filter
          (fun r => !hasMsgListeners (elApplyPhase cfg st).instances r.port)).map
            (fun r => { r with running := false }),
       getValues (((((elApplyPhase cfg st).receivers.registered.filter
          (fun r => hasMsgListeners (elApplyPhase cfg st).instances r.port)).map
            (toggleRaw (hasRawListeners (elApplyPhase cfg st).instances))).filter
              (fun r => hasMsgListeners (elApplyPhase cfg st).instances r.port && !r.running)).map
                (fun r => (startOne bind r).2))) := rfl

/-- C1 (amended): after the change handler completes with every bind attempt
succeeding, starting from a state satisfying the attachment invariant, a
port's receiver is registered and running if and only if at least one
attached (present-and-enabled) listener instance is on that port — the
listeners' consumer destination sets play no role; and every receiver whose
port has no attached listener has been stopped and removed from the
registry. -/
theorem boundPort_iff_attached_enabled_listener (bind : Nat → Nat → Bool)
    (hbind : ∀ pt i, bind pt i = true) (cfg : List ListenerSpec) (st : ELState)
    (hinv : ELInv st) :
    (∀ pt,
      (∃ r ∈ (elOnConfigChange bind cfg st).1.receivers.registered,
         r.port = pt ∧ r.running = true) ↔
      (∃ l ∈ (elOnConfigChange bind cfg st).1.instances, l.port = pt)) ∧
    (∀ r ∈ (elOnConfigChange bind cfg st).1.receivers.registered,
      ∃ l ∈ (elOnConfigChange bind cfg st).1.instances, l.port = r.port) ∧
    (∀ r ∈ (elOnConfigChange bind cfg st).2.1,
      r.running = false ∧
      ¬ ∃ l ∈ (elOnConfigChange bind cfg st).1.instances, l.port = r.port) := by
  have hinv2 := ELInv_elApplyPhase cfg st hinv
  rw [elOnConfigChange_eq]
  dsimp only
  refine ⟨?_, ?_, ?_⟩
  · intro pt
    constructor
    · rintro ⟨r', hr', hport, _⟩
      rw [List.mem_map] at hr'
      obtain ⟨r1, hr1, heq1⟩ := hr'
      rw [List.mem_map] at hr1
      obtain ⟨r0, hr0, heq0⟩ := hr1
      have hkeep := (List.mem_filter.mp hr0).2
      obtain ⟨l, hl, hlp⟩ := (hasMsgListeners_iff _ _).mp hkeep
      have hp0 : r0.port = pt := by
        rw [← hport, ← heq1, startStep_port, ← heq0]
        rfl
      exact ⟨l, hl, by rw [hlp, hp0]⟩
    · rintro ⟨l, hl, hlp⟩
      obtain ⟨r0, hr0, hrp⟩ := hinv2 l hl
      have hp0 : r0.port = pt := by rw [hrp, hlp]
      have hkeep : hasMsgListeners (elApplyPhase cfg st).instances r0.port = true :=
        (hasMsgListeners_iff _ _).mpr ⟨l, hl, hrp.symm⟩
      have hmemf : r0 ∈ (elApplyPhase cfg st).receivers.registered.filter
          (fun r => hasMsgListeners (elApplyPhase cfg st).instances r.port) :=
        List.mem_filter.mpr ⟨hr0, hkeep⟩
      refine ⟨startStep (hasMsgListeners (elApplyPhase cfg st).instances) bind
          (toggleRaw (hasRawListeners (elApplyPhase cfg st).instances) r0), ?_, ?_, ?_⟩
      · exact List.mem_map.mpr
          ⟨toggleRaw (hasRawListeners (elApplyPhase cfg st).instances) r0,
           List.mem_map.mpr ⟨r0, hmemf, rfl⟩, rfl⟩
      · rw [startStep_port]
        exact hp0
      · cases hrun : r0.running with
        | true =>
          have hrunT : (toggleRaw (hasRawListeners (elApplyPhase cfg st).instances) r0).running =
              true := hrun
          rw [startStep_of_running _ _ _ hrunT]
          exact hrunT
        | false =>
          have hrunT : (toggleRaw (hasRawListeners (elApplyPhase cfg st).instances) r0).running =
              false := hrun
          have hkeepT : hasMsgListeners (elApplyPhase cfg st).instances
              (toggleRaw (hasRawListeners (elApplyPhase cfg st).instances) r0).port = true := hkeep
          rw [startStep_running_of_stopped _ _ _ hkeepT hrunT]
          exact restartSucceeds_always _ (fun i => hbind _ i)
  · intro r' hr'
    rw [List.mem_map] at hr'
    obtain ⟨r1, hr1, heq1⟩ := hr'
    rw [List.mem_map] at hr1
    obtain ⟨r0, hr0, heq0⟩ := hr1
    have hkeep := (List.mem_filter.mp hr0).2
    obtain ⟨l, hl, hlp⟩ := (hasMsgListeners_iff _ _).mp hkeep
    have hp0 : r'.port = r0.port := by
      rw [← heq1, startStep_port, ← heq0]
      rfl
    exact ⟨l, hl, by rw [hlp, hp0]⟩
  · intro r' hr'
    rw [List.mem_map] at hr'
    obtain ⟨r0, hr0, heq⟩ := hr'
    have hnokeep := (List.mem_filter.mp hr0).2
    have hfalse : hasMsgListeners (elApplyPhase cfg st).instances r0.port = false := by
      revert hnokeep
      cases hasMsgListeners (elApplyPhase cfg st).instances r0.port <;> simp
    refine ⟨by rw [← heq], ?_⟩
    rintro ⟨l, hl, hlp⟩
    have hp0 : r'.port = r0.port := by rw [← heq]
    rw [(hasMsgListeners_iff _ _).mpr ⟨l, hl, by rw [hlp, hp0]⟩] at hfalse
    exact absurd hfalse (by simp)

/-- C1 counterexample: reconciling a configuration whose single enabled
listener (`specL1`, port 6514) has an empty consumer destination set still
leaves the receiver on port 6514 registered and running — so "bound only if
some attached enabled listener has at least one live consumer destination"
fails on the code: the reconciliation never consults `destinationIds`. -/
theorem boundPort_requires_destination_cex :
    (∃ r ∈ (elOnConfigChange bindOk [specL1] emptyEL).1.receivers.registered,
       r.port = 6514 ∧ r.running = true) ∧
    (∃ l ∈ (elOnConfigChange bindOk [specL1] emptyEL).1.instances, l.port = 6514) ∧
    (∀ l ∈ (elOnConfigChange bindOk [specL1] emptyEL).1.instances,
       l.destinationIds = []) := by
  decide

/-- Witness for C1 (amended), instantiated on a fresh state and the one-spec
configuration. -/
theorem boundPort_iff_attached_enabled_listener_witness :
    (∃ r ∈ (elOnConfigChange bindOk [specL2] emptyEL).1.receivers.registered,
       r.port = 6514 ∧ r.running = true) ↔
    (∃ l ∈ (elOnConfigChange bindOk [specL2] emptyEL).1.instances, l.port = 6514) :=
  (boundPort_iff_attached_enabled_listener bindOk (fun _ _ => rfl) [specL2] emptyEL
    (fun l hl => absurd hl (List.not_mem_nil l))).1 6514

/-- Witness for C2: removing both instances of type `X` unloads `X` exactly
once. -/
theorem moduleUnload_iff_unreferenced_witness :
    (consumersOnChange cLoad cMd true [xInst1, xInst2] []).2 = ["X"] :=
  (moduleUnload_iff_unreferenced cLoad cMd true [] [] "X").2.2.2
